import Mathlib

/-!
Shallow embedding of the Roxiler transaction backend
(`src/controllers/transactionController.js` together with the Mongoose model
`Transaction` and the Express routes).  The store is modelled as a list of
documents; the MongoDB aggregation stages used by the controllers
(`$addFields`/`$month`, `$match`, `$skip`, `$limit`, `$project`, `$count`)
are modelled by the corresponding list operations in document order.
JavaScript numbers appearing in queries are modelled by rationals together
with an explicit NaN marker.
-/

set_option maxHeartbeats 1000000

namespace Roxiler

/-- A JavaScript number that may be NaN, as produced by coercing a query
string with unary `+` or `Number(...)`. -/
inductive JSNum where
  | nan : JSNum
  | num : ℚ → JSNum
deriving DecidableEq, Repr

/-- Numeric value of a run of decimal digit characters. -/
def digitsVal (l : List Char) : ℕ :=
  l.foldl (fun a c => a * 10 + (c.toNat - 48)) 0

/-- JavaScript `Number(s)` (equivalently unary `+s`) restricted to the plain
decimal literals exercised by this program: the empty string coerces to `0`,
an optional minus sign followed by digits and an optional fractional part
yields that value, and anything else yields NaN.  (Exponent forms, hex forms
and surrounding whitespace are outside the fragment used here.) -/
def jsToNum (s : String) : JSNum :=
  if s = "" then .num 0
  else
    let (neg, cs) :=
      match s.data with
      | '-' :: r => (true, r)
      | r => (false, r)
    let ip := cs.takeWhile Char.isDigit
    let rest := cs.dropWhile Char.isDigit
    let mk : ℚ → JSNum := fun v => .num (if neg then -v else v)
    match rest with
    | [] => if ip.isEmpty then .nan else mk (digitsVal ip)
    | '.' :: fr =>
        if fr.all Char.isDigit && !(ip.isEmpty && fr.isEmpty) then
          mk ((digitsVal ip : ℚ) + (digitsVal fr : ℚ) / ((10 : ℚ) ^ fr.length))
        else .nan
    | _ => .nan

/-- JavaScript `parseInt(s, 10)`: an optional sign followed by the longest
leading run of decimal digits; `none` models NaN (no digits at all). -/
def parseIntJS (s : String) : Option Int :=
  let (neg, cs) :=
    match s.data with
    | '-' :: r => (true, r)
    | '+' :: r => (false, r)
    | r => (false, r)
  let ds := cs.takeWhile Char.isDigit
  if ds.isEmpty then none
  else some (if neg then -(digitsVal ds : Int) else (digitsVal ds : Int))

/-- The month guard `!month || +month <= 0 || +month > 12` shared verbatim by
all five request handlers.  `!month` is true for an absent month and for the
empty string; both numeric comparisons are false when `+month` is NaN. -/
def monthInvalid (month : Option String) : Bool :=
  match month with
  | none => true
  | some s =>
    if s = "" then true
    else
      match jsToNum s with
      | .nan => false
      | .num v => decide (v ≤ 0) || decide (12 < v)

/-- A stored transaction document (Mongoose model `Transaction`).  Optional
text fields are the empty string when absent.  Only the calendar month of
`dateOfSale` is ever consumed (via the `$month` operator), so the document
carries that projection directly as `saleMonth`. -/
structure Transaction where
  title : String
  description : String := ""
  price : ℚ
  category : String := ""
  saleMonth : ℕ
  sold : Bool := false
deriving DecidableEq, Repr

/-- The `$match` test `{ month: +month }` applied to the `$month` projection
of a document.  `$month` never yields NaN, so a NaN month matches nothing. -/
def monthMatches (m : JSNum) (t : Transaction) : Bool :=
  match m with
  | .nan => false
  | .num v => decide (v = (t.saleMonth : ℚ))

/-- An HTTP response produced by a handler: `ok` is `res.status(200)`,
`badRequest` is `res.status(400)` and `serverError` is `res.status(500)`,
each carrying (the fixed part of) the JSON body. -/
inductive Resp (α : Type) where
  | ok (body : α)
  | badRequest (message : String)
  | serverError (message : String)
deriving DecidableEq, Repr

/-- The outcome of invoking a handler function directly (as `getCombinedData`
does): either it wrote a response to a real `res` object, or the underlying
promise rejected (for instance because `res` was `null` and `res.status`
threw a `TypeError`). -/
inductive CallResult (α : Type) where
  | responded : Resp α → CallResult α
  | threw : CallResult α
deriving DecidableEq, Repr

/-! ### Search (`new RegExp(search, 'i')` and the `$or` clause) -/

/-- One compiled pattern character of a JavaScript regular expression.  The
model covers the fragment this development exercises: literal characters
(compared case-insensitively because of the `i` flag) and the `.` wildcard.
On patterns containing none of the other regex metacharacters this agrees
with `new RegExp(pattern, "i")`. -/
inductive RChar where
  | lit : Char → RChar
  | dot : RChar
deriving DecidableEq, Repr

/-- Compile a pattern string character by character. -/
def compileRegex (pat : String) : List RChar :=
  pat.data.map (fun c => if c = '.' then .dot else .lit c)

/-- Whether one pattern character matches one subject character. -/
def rcharMatches : RChar → Char → Bool
  | .dot, _ => true
  | .lit a, b => a.toLower = b.toLower

/-- Whether the pattern matches a prefix of the subject. -/
def matchesHere : List RChar → List Char → Bool
  | [], _ => true
  | _ :: _, [] => false
  | r :: rs, c :: cs => rcharMatches r c && matchesHere rs cs

/-- Unanchored regex test, as used by a `$match` on a string field: the
pattern may match starting at any position of the subject. -/
def regexTest (rs : List RChar) : List Char → Bool
  | [] => matchesHere rs []
  | c :: cs => matchesHere rs (c :: cs) || regexTest rs cs

/-- The `$or` search clause of `listTransactions`: the case-insensitive regex
against `title` or `description`, or the exact price clause
`{ price: Number(search) }`.  When `Number(search)` is NaN the price entry is
serialized as `{ price: null }`, which matches no stored document because
`price` is a required number, so that disjunct contributes nothing. -/
def searchMatches (search : String) (t : Transaction) : Bool :=
  let rgx := compileRegex search
  regexTest rgx t.title.data || regexTest rgx t.description.data ||
    (match jsToNum search with
     | .nan => false
     | .num q => decide (t.price = q))

/-! ### listTransactions -/

/-- The `pagination` object of a list response. -/
structure Pagination where
  totalRecords : ℕ
  currentPage : ℤ
  perPage : ℤ
  totalPages : ℕ
deriving DecidableEq, Repr

/-- The 200 body of `listTransactions`. -/
structure ListBody where
  transactions : List Transaction
  pagination : Pagination
deriving DecidableEq, Repr

/-- The query parameters read by `listTransactions`; `none` is an absent
parameter (destructuring then supplies `search = ""`, `page = 1`,
`perPage = 10`). -/
structure ListQuery where
  month : Option String := none
  search : Option String := none
  page : Option String := none
  perPage : Option String := none

/-- `listTransactions`.  The aggregation pipeline is
`[$addFields month, $match, $skip, $limit, $project]`; the count pipeline is
`pipeline.slice(0, -2)` followed by `$count`, which drops the `$limit` and
`$project` stages but keeps the `$skip` stage, so `totalRecords` is the
number of matching documents *after* the skip.  A NaN or negative `$skip`
and a negative `$limit` are rejected by the store, landing in the catch
block (500). -/
def listTransactions (db : List Transaction) (q : ListQuery) : Resp ListBody :=
  if monthInvalid q.month then .badRequest "Valid month is required"
  else
    let month := jsToNum (q.month.getD "")
    let limit : ℤ :=
      match q.perPage with
      | none => 10
      | some s =>
        match parseIntJS s with
        | none => 10
        | some v => if v = 0 then 10 else v
    let pageNum : Option Int :=
      match q.page with
      | none => some 1
      | some s => parseIntJS s
    match pageNum with
    | none => .serverError "Failed to fetch transactions"
    | some pg =>
      let skip : ℤ := (pg - 1) * limit
      if skip < 0 ∨ limit < 0 then .serverError "Failed to fetch transactions"
      else
        let filtered := db.filter (fun t =>
          monthMatches month t && searchMatches (q.search.getD "") t)
        let afterSkip := filtered.drop skip.toNat
        .ok
          { transactions := afterSkip.take limit.toNat
            pagination :=
              { totalRecords := afterSkip.length
                currentPage := pg
                perPage := limit
                totalPages := (afterSkip.length + limit.toNat - 1) / limit.toNat } }

/-! ### getStatistics -/

/-- The 200 body of `getStatistics`. -/
structure Stats where
  totalSaleAmount : ℚ
  totalSoldItems : ℕ
  totalUnsoldItems : ℕ
deriving DecidableEq, Repr

/-- The statistics computed from the month-matching documents:
`totalSaleAmount` is the `reduce` over sold items, `totalSoldItems` the sold
count, and `totalUnsoldItems` the difference `transactions.length -
totalSoldItems`. -/
def statsBody (db : List Transaction) (m : JSNum) : Stats :=
  let transactions := db.filter (monthMatches m)
  let totalSoldItems := (transactions.filter (fun t => t.sold)).length
  { totalSaleAmount :=
      (transactions.filter (fun t => t.sold)).foldl (fun sum t => sum + t.price) 0
    totalSoldItems := totalSoldItems
    totalUnsoldItems := transactions.length - totalSoldItems }

/-- `getStatistics`, parametrised by whether it was invoked with `res = null`
(as `getCombinedData` does).  With a null `res`, every `res.status(...)` call
throws a `TypeError`; the catch block then calls `res.status(500)` on the
same null `res`, which throws again, so the handler promise rejects. -/
def getStatisticsWith (resNull : Bool) (db : List Transaction)
    (month : Option String) : CallResult Stats :=
  if monthInvalid month then
    if resNull then .threw else .responded (.badRequest "Valid month is required")
  else
    let body := statsBody db (jsToNum (month.getD ""))
    if resNull then .threw else .responded (.ok body)

/-- `getStatistics` as mounted on `GET /statistics` (real `res` object). -/
def getStatistics (db : List Transaction) (month : Option String) : Resp Stats :=
  match getStatisticsWith false db month with
  | .responded r => r
  | .threw => .serverError "Failed to fetch statistics"

/-! ### getBarChart -/

/-- One entry of the `ranges` table.  `hi = none` models `Infinity`; every
bound in the source is an integer literal. -/
structure Range where
  label : String
  lo : ℕ
  hi : Option ℕ
deriving DecidableEq, Repr

/-- The fixed price ranges of `getBarChart`, in source order. -/
def ranges : List Range :=
  [⟨"0-100", 0, some 100⟩,
   ⟨"101-200", 101, some 200⟩,
   ⟨"201-300", 201, some 300⟩,
   ⟨"301-400", 301, some 400⟩,
   ⟨"401-500", 401, some 500⟩,
   ⟨"501-600", 501, some 600⟩,
   ⟨"601-700", 601, some 700⟩,
   ⟨"701-800", 701, some 800⟩,
   ⟨"801-900", 801, some 900⟩,
   ⟨"901-above", 901, none⟩]

/-- `price <= range.max`, where `max = Infinity` is `none`. -/
def priceUpTo (p : ℚ) : Option ℕ → Bool
  | some h => decide (p ≤ (h : ℚ))
  | none => true

/-- The filter `item.price >= range.min && item.price <= range.max &&
item.sold` of `getBarChart`. -/
def rangePred (r : Range) (t : Transaction) : Bool :=
  decide ((r.lo : ℚ) ≤ t.price) && priceUpTo t.price r.hi && t.sold

/-- Whether a price lies in a range, ignoring the sold flag (used to state
bucket exclusivity and exhaustiveness). -/
def rangeMem (p : ℚ) (r : Range) : Bool :=
  decide ((r.lo : ℚ) ≤ p) && priceUpTo p r.hi

/-- One entry of the `rangeCounts` array returned by `getBarChart`. -/
structure RangeCount where
  range : String
  count : ℕ
deriving DecidableEq, Repr

/-- The `rangeCounts` computation of `getBarChart` on the month-matching
documents. -/
def barBody (db : List Transaction) (m : JSNum) : List RangeCount :=
  let transactions := db.filter (monthMatches m)
  ranges.map (fun r => ⟨r.label, (transactions.filter (rangePred r)).length⟩)

/-- `getBarChart`, parametrised over a possibly-null `res` exactly as
`getStatisticsWith`. -/
def getBarChartWith (resNull : Bool) (db : List Transaction)
    (month : Option String) : CallResult (List RangeCount) :=
  if monthInvalid month then
    if resNull then .threw else .responded (.badRequest "Valid month is required")
  else
    let body := barBody db (jsToNum (month.getD ""))
    if resNull then .threw else .responded (.ok body)

/-- `getBarChart` as mounted on `GET /bar-chart`. -/
def getBarChart (db : List Transaction) (month : Option String) :
    Resp (List RangeCount) :=
  match getBarChartWith false db month with
  | .responded r => r
  | .threw => .serverError "Failed to fetch bar chart data"

/-! ### getPieChart

The accumulator of the `reduce` is a plain JavaScript object literal `{}`.
Its model must carry real JavaScript object semantics, not just an
insertion-ordered map:
- a property value is whatever `(acc[category] || 0) + 1` produced; for a
  category naming an inherited `Object.prototype` member the first read
  yields a truthy function, so `+ 1` concatenates and the stored value is a
  string, not a number;
- an assignment to the key `__proto__` is routed to the inherited
  `__proto__` accessor: with a non-object right-hand side it is silently
  swallowed and no own property is ever created;
- `Object.entries` enumerates own array-index keys (canonical digit
  strings) first in ascending numeric order, then the remaining string keys
  in insertion order (ECMAScript OrdinaryOwnPropertyKeys). -/

/-- A JavaScript value held in an accumulator property: the counts the code
intends are numbers, but prototype pollution can make them strings. -/
inductive JSVal where
  | num : ℕ → JSVal
  | str : String → JSVal
deriving DecidableEq, Repr

/-- One entry of the `categoryCounts` array returned by `getPieChart`; the
count is whatever JavaScript value the accumulator held. -/
structure CategoryCount where
  category : String
  count : JSVal
deriving DecidableEq, Repr

/-- The own-property names of `Object.prototype`, inherited by the object
literal `{}`: reading any of them through an object with no own property of
that name yields a truthy value instead of `undefined`. -/
def objectProtoKeys : List String :=
  ["constructor", "hasOwnProperty", "isPrototypeOf", "propertyIsEnumerable",
   "toLocaleString", "toString", "valueOf", "__defineGetter__",
   "__defineSetter__", "__lookupGetter__", "__lookupSetter__", "__proto__"]

/-- The string an inherited `Object.prototype` function renders as when
concatenated with a number.  The exact text is engine-defined; nothing in
this development depends on it beyond being a truthy non-number. -/
def protoSource (k : String) : String :=
  "function " ++ k ++ "() \x7b [native code] \x7d"

/-- `(v || 0) + 1` on an existing own-property value `v`: a (nonzero) number
is incremented; a nonempty string is truthy, so `+ 1` concatenates. -/
def bumpVal : JSVal → JSVal
  | .num n => if n = 0 then .num 1 else .num (n + 1)
  | .str s => if s = "" then .num 1 else .str (s ++ "1")

/-- One step of the `reduce`: `acc[category] = (acc[category] || 0) + 1`.
An existing own property is updated in place; otherwise the key `__proto__`
is swallowed by the inherited accessor (no own property appears), a key
naming another `Object.prototype` member reads the inherited function (so
the new property holds a concatenated string), and any other fresh key is
appended with the number 1. -/
def bump : List (String × JSVal) → String → List (String × JSVal)
  | [], c =>
      if c = "__proto__" then []
      else if c ∈ objectProtoKeys then [(c, .str (protoSource c ++ "1"))]
      else [(c, .num 1)]
  | (k, v) :: rest, c =>
      if k = c then (k, bumpVal v) :: rest else (k, v) :: bump rest c

/-- Whether a string is a canonical array index ("0", or digits with no
leading zero, below 2^32 - 1): such own keys enumerate first, numerically. -/
def isArrayIndex (s : String) : Bool :=
  !s.isEmpty && s.data.all Char.isDigit &&
    (decide (s = "0") || decide (s.data.head? ≠ some '0')) &&
    decide (digitsVal s.data < 4294967295)

/-- Insert a property into a list of array-index properties, keeping the
numeric values ascending. -/
def insertIndexed (p : String × JSVal) :
    List (String × JSVal) → List (String × JSVal)
  | [] => [p]
  | q :: rest =>
      if digitsVal p.1.data < digitsVal q.1.data then p :: q :: rest
      else q :: insertIndexed p rest

/-- Sort array-index properties in ascending numeric order. -/
def sortByIndex (l : List (String × JSVal)) : List (String × JSVal) :=
  l.foldr insertIndexed []

/-- `Object.entries`: own array-index keys first in ascending numeric
order, then the remaining own keys in insertion order. -/
def jsEntries (own : List (String × JSVal)) : List (String × JSVal) :=
  sortByIndex (own.filter (fun p => isArrayIndex p.1)) ++
    own.filter (fun p => !isArrayIndex p.1)

/-- The category label of a document: `transaction.category || 'Uncategorized'`
(an absent or empty category is falsy). -/
def categoryLabel (t : Transaction) : String :=
  if t.category = "" then "Uncategorized" else t.category

/-- The `categoryCounts` computation of `getPieChart` on the month-matching
documents: the `reduce` over the accumulator object followed by
`Object.entries`. -/
def pieBody (db : List Transaction) (m : JSNum) : List CategoryCount :=
  let transactions := db.filter (monthMatches m)
  (jsEntries ((transactions.map categoryLabel).foldl bump [])).map
    (fun p => ⟨p.1, p.2⟩)

/-- `getPieChart`, parametrised over a possibly-null `res`. -/
def getPieChartWith (resNull : Bool) (db : List Transaction)
    (month : Option String) : CallResult (List CategoryCount) :=
  if monthInvalid month then
    if resNull then .threw else .responded (.badRequest "Valid month is required")
  else
    let body := pieBody db (jsToNum (month.getD ""))
    if resNull then .threw else .responded (.ok body)

/-- `getPieChart` as mounted on `GET /pie-chart`. -/
def getPieChart (db : List Transaction) (month : Option String) :
    Resp (List CategoryCount) :=
  match getPieChartWith false db month with
  | .responded r => r
  | .threw => .serverError "Failed to fetch pie chart data"

/-! ### getCombinedData -/

/-- The intended 200 body of `getCombinedData`. -/
structure Combined where
  statistics : Stats
  barChart : List RangeCount
  pieChart : List CategoryCount
deriving DecidableEq, Repr

/-- `getCombinedData`: after its own month check it invokes the three view
handlers directly as `getStatistics({ query: { month } }, null, true)` (and
likewise for the bar and pie handlers) and joins them with `Promise.all`.
The handlers ignore the third argument and write to `res`, which is `null`
here.  If any sub-promise rejects, `Promise.all` rejects into the catch
block; even if all three resolved, they return no value, so reading
`statistics.error` off `undefined` would throw into the same catch block.
Either way the handler answers 500. -/
def getCombinedData (db : List Transaction) (month : Option String) :
    Resp Combined :=
  if monthInvalid month then .badRequest "Valid month is required"
  else
    match getStatisticsWith true db month, getBarChartWith true db month,
        getPieChartWith true db month with
    | .responded _, .responded _, .responded _ =>
        .serverError "Failed to fetch combined data"
    | _, _, _ => .serverError "Failed to fetch combined data"

/-! ### initializeDB -/

/-- The environment of one `initializeDB` run: the outcome of the
`axios.get(process.env.API_URL)` fetch and an injected outcome for the
`insertMany` step. -/
structure SeedEnv where
  fetched : Except String (List Transaction)
  insertFails : Bool

/-- The 200 body of `initializeDB`. -/
structure InitBody where
  message : String
  totalRecords : ℕ
deriving DecidableEq, Repr

/-- `initializeDB`, returning the store after the run together with the
response.  A fetch failure throws before `deleteMany`, leaving the store
untouched; `deleteMany` empties the store unconditionally; an `insertMany`
failure then lands in the catch block with the store already cleared (there
is no compensating transaction). -/
def initializeDB (env : SeedEnv) (store : List Transaction) :
    List Transaction × Resp InitBody :=
  match env.fetched with
  | .error _ => (store, .serverError "Failed to initialize database")
  | .ok data =>
      let cleared : List Transaction := []
      if env.insertFails then (cleared, .serverError "Failed to initialize database")
      else (data, .ok ⟨"Database initialized successfully!", data.length⟩)

/-! ### Spec-side definitions

These follow the specification's words and are used to compare the code's
behaviour against the spec (for the corrected claims) and to phrase
properties in the spec's vocabulary. -/

/-- Spec-side: whether the needle is a character-for-character,
case-insensitive prefix of the haystack. -/
def startsWithCI : List Char → List Char → Bool
  | [], _ => true
  | _ :: _, [] => false
  | a :: as, b :: bs => (a.toLower = b.toLower) && startsWithCI as bs

/-- Spec-side: whether the needle occurs case-insensitively as a contiguous
substring of the haystack. -/
def containsCI (needle : List Char) : List Char → Bool
  | [] => startsWithCI needle []
  | c :: cs => startsWithCI needle (c :: cs) || containsCI needle cs

/-- The JavaScript regular-expression metacharacters.  A pattern containing
none of these is matched by `new RegExp(pattern, "i")` exactly as a
case-insensitive literal substring. -/
def metachars : List Char := ".*+?^$()[]|\\\x7b\x7d".data

/-- Spec-side search predicate, following the spec's words: the search text
matches a record when the title or the description contains it
case-insensitively as a substring, or when the search text parses as a
number and the price exactly equals that number. -/
def specSearchMatches (search : String) (t : Transaction) : Bool :=
  containsCI search.data t.title.data || containsCI search.data t.description.data ||
    (match jsToNum search with
     | .nan => false
     | .num q => decide (t.price = q))

/-- Spec-side: the distinct elements of a list in order of first occurrence
(the insertion order of the keys of the JavaScript accumulator object). -/
def insertionKeys (l : List String) : List String :=
  l.foldl (fun ks c => if c ∈ ks then ks else ks ++ [c]) []

/-- Spec-side: the category labels of the records of month `m`, in store
order. -/
def pieLabels (db : List Transaction) (m : ℕ) : List String :=
  (db.filter (fun t => t.saleMonth = m)).map categoryLabel

/-! ### Helper lemmas -/

theorem monthMatches_num (m : ℕ) (t : Transaction) :
    monthMatches (.num (m : ℚ)) t = decide (t.saleMonth = m) := by
  simp only [monthMatches, decide_eq_decide]
  exact ⟨fun h => by exact_mod_cast h.symm, fun h => by exact_mod_cast h.symm⟩

theorem jsToNum_empty : jsToNum "" = .num 0 := rfl

theorem monthInvalid_valid {s : String} {m : ℕ}
    (h1 : jsToNum s = .num (m : ℚ)) (h2 : 1 ≤ m) (h3 : m ≤ 12) :
    monthInvalid (some s) = false := by
  have hs : s ≠ "" := by
    intro he
    rw [he, jsToNum_empty] at h1
    have : (0 : ℚ) = (m : ℚ) := by injection h1
    have : m = 0 := by exact_mod_cast this.symm
    omega
  simp only [monthInvalid, if_neg hs, h1, Bool.or_eq_false_iff,
    decide_eq_false_iff_not]
  constructor
  · exact_mod_cast (by omega : ¬ (m ≤ 0))
  · exact_mod_cast (by omega : ¬ (12 < m))

theorem filter_month (db : List Transaction) (m : ℕ) :
    db.filter (monthMatches (.num (m : ℚ))) =
      db.filter (fun t => t.saleMonth = m) := by
  apply List.filter_congr
  intro t _
  rw [monthMatches_num]

theorem foldl_add_price (l : List Transaction) (a : ℚ) :
    l.foldl (fun sum t => sum + t.price) a = a + (l.map (fun t => t.price)).sum := by
  induction l generalizing a with
  | nil => simp
  | cons t l ih => simp [ih, add_assoc]

/-- C6: for every valid month (1-12) and any stored data set, `getStatistics`
returns `totalSaleAmount` equal to the sum of `price` over sold records of
that sale-month, `totalSoldItems` equal to the count of those sold records,
and `totalUnsoldItems` such that sold + unsold equals the count of all
records of that sale-month. -/
theorem c6_statistics_correct (db : List Transaction) (s : String) (m : ℕ)
    (h1 : jsToNum s = .num (m : ℚ)) (h2 : 1 ≤ m) (h3 : m ≤ 12) :
    ∃ b, getStatistics db (some s) = .ok b ∧
      b.totalSaleAmount =
        (((db.filter (fun t => t.saleMonth = m)).filter (fun t => t.sold)).map
          (fun t => t.price)).sum ∧
      b.totalSoldItems =
        ((db.filter (fun t => t.saleMonth = m)).filter (fun t => t.sold)).length ∧
      b.totalSoldItems + b.totalUnsoldItems =
        (db.filter (fun t => t.saleMonth = m)).length := by
  refine ⟨statsBody db (jsToNum s), ?_, ?_, ?_, ?_⟩
  · simp [getStatistics, getStatisticsWith, monthInvalid_valid h1 h2 h3]
  · simp [statsBody, h1, filter_month, foldl_add_price]
  · simp [statsBody, h1, filter_month]
  · simp only [statsBody, h1, filter_month]
    exact Nat.add_sub_cancel' (List.length_filter_le _ _)

/-- The worked example of spec section 8: one sold record of price 150 in
category Electronics and one unsold record of price 50 with no category,
both of sale-month March. -/
def specExample : List Transaction :=
  [{ title := "Phone", description := "smart", price := 150,
     category := "Electronics", saleMonth := 3, sold := true },
   { title := "Cup", price := 50, saleMonth := 3 }]

/-- Witness for C6 at the spec's worked example. -/
theorem c6_statistics_correct_witness :
    ∃ b, getStatistics specExample (some "3") = .ok b ∧
      b.totalSaleAmount =
        (((specExample.filter (fun t => t.saleMonth = 3)).filter
          (fun t => t.sold)).map (fun t => t.price)).sum ∧
      b.totalSoldItems =
        ((specExample.filter (fun t => t.saleMonth = 3)).filter
          (fun t => t.sold)).length ∧
      b.totalSoldItems + b.totalUnsoldItems =
        (specExample.filter (fun t => t.saleMonth = 3)).length :=
  c6_statistics_correct specExample "3" 3 (by decide) (by decide) (by decide)

/-- C3: for each of the five month-requiring handlers, a request whose
`month` is absent, `0`, negative, or greater than 12 gets the 400 validation
answer; the response is the same for every store content, i.e. no query
against the store is consulted. -/
theorem c3_month_validation (db : List Transaction)
    (search page perPage : Option String) (month : Option String)
    (h : month = none ∨
      ∃ s v, month = some s ∧ jsToNum s = .num v ∧ (v ≤ 0 ∨ 12 < v)) :
    listTransactions db ⟨month, search, page, perPage⟩ =
      .badRequest "Valid month is required" ∧
    getStatistics db month = .badRequest "Valid month is required" ∧
    getBarChart db month = .badRequest "Valid month is required" ∧
    getPieChart db month = .badRequest "Valid month is required" ∧
    getCombinedData db month = .badRequest "Valid month is required" := by
  have hv : monthInvalid month = true := by
    rcases h with rfl | ⟨s, v, rfl, hj, hle⟩
    · rfl
    · by_cases hs : s = ""
      · simp [monthInvalid, hs]
      · simp only [monthInvalid, if_neg hs, hj]
        rcases hle with hle | hle
        · simp [hle]
        · simp [hle]
  refine ⟨?_, ?_, ?_, ?_, ?_⟩ <;>
    simp [listTransactions, getStatistics, getStatisticsWith, getBarChart,
      getBarChartWith, getPieChart, getPieChartWith, getCombinedData, hv]

/-- Witness for C3 at `month = "0"` against the example store. -/
theorem c3_month_validation_witness :
    listTransactions specExample ⟨some "0", none, none, none⟩ =
      .badRequest "Valid month is required" ∧
    getStatistics specExample (some "0") = .badRequest "Valid month is required" ∧
    getBarChart specExample (some "0") = .badRequest "Valid month is required" ∧
    getPieChart specExample (some "0") = .badRequest "Valid month is required" ∧
    getCombinedData specExample (some "0") = .badRequest "Valid month is required" :=
  c3_month_validation specExample none none none (some "0")
    (Or.inr ⟨"0", 0, rfl, by decide, Or.inl (by norm_num)⟩)

theorem filter_nan (db : List Transaction) :
    db.filter (monthMatches .nan) = [] := by
  simp [monthMatches]

/-- C10: a `month` that is present but coerces to NaN (such as "abc") passes
the validation guard — both `+month <= 0` and `+month > 12` are false for
NaN — and the query runs: the NaN month filter matches no document, so the
four data handlers answer 200 with empty results instead of a 400. -/
theorem c10_nan_month_not_rejected (db : List Transaction) (s : String)
    (h : jsToNum s = .nan) :
    monthInvalid (some s) = false ∧
    listTransactions db ⟨some s, none, none, none⟩ =
      .ok ⟨[], ⟨0, 1, 10, 0⟩⟩ ∧
    getStatistics db (some s) = .ok ⟨0, 0, 0⟩ ∧
    getBarChart db (some s) = .ok (ranges.map fun r => ⟨r.label, 0⟩) ∧
    getPieChart db (some s) = .ok [] := by
  have hs : s ≠ "" := by
    intro he
    rw [he, jsToNum_empty] at h
    exact JSNum.noConfusion h
  have hv : monthInvalid (some s) = false := by
    simp [monthInvalid, hs, h]
  refine ⟨hv, ?_, ?_, ?_, ?_⟩
  · simp [listTransactions, hv, h, monthMatches]
  · simp [getStatistics, getStatisticsWith, hv, statsBody, h, monthMatches]
  · simp [getBarChart, getBarChartWith, hv, barBody, h, monthMatches]
  · simp [getPieChart, getPieChartWith, hv, pieBody, h, filter_nan, jsEntries,
      sortByIndex]

/-- Witness for C10 at `month = "abc"` against the example store. -/
theorem c10_nan_month_not_rejected_witness :
    monthInvalid (some "abc") = false ∧
    listTransactions specExample ⟨some "abc", none, none, none⟩ =
      .ok ⟨[], ⟨0, 1, 10, 0⟩⟩ ∧
    getStatistics specExample (some "abc") = .ok ⟨0, 0, 0⟩ ∧
    getBarChart specExample (some "abc") = .ok (ranges.map fun r => ⟨r.label, 0⟩) ∧
    getPieChart specExample (some "abc") = .ok [] :=
  c10_nan_month_not_rejected specExample "abc" (by decide)

/-- C8: a successful seed discards the entire previous store content and
leaves exactly the fetched data set, reporting the count of inserted
records; seeding twice leaves only the second fetch's records. -/
theorem c8_seed_full_replace (store d1 d2 : List Transaction) :
    initializeDB ⟨.ok d1, false⟩ store =
      (d1, .ok ⟨"Database initialized successfully!", d1.length⟩) ∧
    (initializeDB ⟨.ok d2, false⟩ (initializeDB ⟨.ok d1, false⟩ store).1).1 = d2 :=
  ⟨rfl, rfl⟩

/-- C9: if the insertion step fails after the destructive clear, the run
answers 500 and leaves the store empty (the deleted content is not
restored); if the fetch itself fails, the prior store content is untouched. -/
theorem c9_seed_not_atomic (store data : List Transaction) (e : String) (b : Bool) :
    initializeDB ⟨.error e, b⟩ store =
      (store, .serverError "Failed to initialize database") ∧
    initializeDB ⟨.ok data, true⟩ store =
      ([], .serverError "Failed to initialize database") :=
  ⟨rfl, rfl⟩

/-- C1: on the example store and month 3 each of the three constituent views
succeeds on its own endpoint, yet `getCombinedData` answers 500 — the
handler invokes the three views with `res = null`, so every sub-call's
promise rejects and no combined success object is ever produced.  This
contradicts the contract (and the handler's own doc comment) that the
combined call merges the three results into a 200 response. -/
theorem c1_combined_always_fails :
    getStatistics specExample (some "3") = .ok ⟨150, 1, 1⟩ ∧
    getBarChart specExample (some "3") =
      .ok [⟨"0-100", 0⟩, ⟨"101-200", 1⟩, ⟨"201-300", 0⟩, ⟨"301-400", 0⟩,
           ⟨"401-500", 0⟩, ⟨"501-600", 0⟩, ⟨"601-700", 0⟩, ⟨"701-800", 0⟩,
           ⟨"801-900", 0⟩, ⟨"901-above", 0⟩] ∧
    getPieChart specExample (some "3") =
      .ok [⟨"Electronics", .num 1⟩, ⟨"Uncategorized", .num 1⟩] ∧
    getCombinedData specExample (some "3") =
      .serverError "Failed to fetch combined data" := by
  refine ⟨?_, by decide, by decide, by decide⟩
  have h3 : jsToNum "3" = JSNum.num ((3 : ℕ) : ℚ) := by decide
  have hv : monthInvalid (some "3") = false :=
    monthInvalid_valid h3 (by norm_num) (by norm_num)
  simp only [getStatistics, getStatisticsWith, hv, Bool.false_eq_true, if_false,
    Option.getD_some, h3]
  norm_num [statsBody, specExample, monthMatches, List.filter, List.foldl]

/-- Two sold March documents used to exhibit the pagination counting slip. -/
def pageDoc1 : Transaction :=
  { title := "a", price := 10, category := "c", saleMonth := 3, sold := true }

/-- Second sold March document for the pagination example. -/
def pageDoc2 : Transaction :=
  { title := "b", price := 20, category := "c", saleMonth := 3, sold := true }

/-- C4: with two matching records, `perPage = 1` and `page = 2`, the handler
reports `totalRecords = 1` and `totalPages = 1`, although two records match
the filter without skip/limit (so the total should be 2 and
`ceil(2/1) = 2` pages).  The count pipeline `pipeline.slice(0, -2)` keeps
the `$skip` stage — contradicting the adjacent comment "Exclude $skip and
$limit for the count" — so the reported totals shrink as the page number
grows. -/
theorem c4_count_applied_after_skip :
    listTransactions [pageDoc1, pageDoc2] ⟨some "3", none, some "2", some "1"⟩ =
      .ok ⟨[pageDoc2], ⟨1, 2, 1, 1⟩⟩ ∧
    (([pageDoc1, pageDoc2] : List Transaction).filter
      (fun t => t.saleMonth = 3)).length = 2 := by
  decide

/-! ### Pie-chart accumulator lemmas -/

/-- Proof-side abstraction of the accumulator for plain keys only: every
count stays a number.  `bump` coincides with it (under `JSVal.num`) exactly
when the processed labels avoid `Object.prototype` member names. -/
def bumpNat : List (String × ℕ) → String → List (String × ℕ)
  | [], c => [(c, 1)]
  | (k, v) :: rest, c =>
      if k = c then (k, v + 1) :: rest else (k, v) :: bumpNat rest c

/-- Reading a key off the abstracted accumulator, 0 when absent
(`acc[category] || 0` for a plain key). -/
def lookupD : List (String × ℕ) → String → ℕ
  | [], _ => 0
  | (k, _v) :: rest, c => if k = c then _v else lookupD rest c

theorem bumpNat_keys (acc : List (String × ℕ)) (c : String) :
    (bumpNat acc c).map Prod.fst =
      if c ∈ acc.map Prod.fst then acc.map Prod.fst
      else acc.map Prod.fst ++ [c] := by
  induction acc with
  | nil => simp [bumpNat]
  | cons p rest ih =>
    obtain ⟨k, v⟩ := p
    by_cases h : k = c
    · simp [bumpNat, h]
    · have hck : ¬ (c = k) := fun hh => h hh.symm
      by_cases hm : c ∈ rest.map Prod.fst
      · simp [bumpNat, h, ih, hm, hck]
      · simp [bumpNat, h, ih, hm, hck]

theorem bumpNat_lookupD (acc : List (String × ℕ)) (x c : String) :
    lookupD (bumpNat acc x) c = lookupD acc c + (if x = c then 1 else 0) := by
  induction acc with
  | nil => simp [bumpNat, lookupD]
  | cons p rest ih =>
    obtain ⟨k, v⟩ := p
    by_cases hkx : k = x
    · by_cases hkc : k = c
      · simp [bumpNat, lookupD, hkx, hkc, hkx ▸ hkc]
      · have : ¬ (x = c) := fun hh => hkc (hkx.trans hh)
        simp [bumpNat, lookupD, hkx, hkc, this]
    · by_cases hkc : k = c
      · have hxc : ¬ (x = c) := fun hh => hkx (hkc.trans hh.symm)
        have hcx : ¬ (c = x) := fun hh => hxc hh.symm
        simp [bumpNat, lookupD, hkx, hkc, hxc, hcx]
      · simp [bumpNat, lookupD, hkx, hkc, ih]

theorem bumpNat_sum (acc : List (String × ℕ)) (x : String) :
    ((bumpNat acc x).map Prod.snd).sum = ((acc.map Prod.snd).sum) + 1 := by
  induction acc with
  | nil => simp [bumpNat]
  | cons p rest ih =>
    obtain ⟨k, v⟩ := p
    by_cases hkx : k = x
    · simp [bumpNat, hkx]
      omega
    · simp [bumpNat, hkx, ih]
      omega

theorem bumpNat_nodup (acc : List (String × ℕ)) (x : String)
    (h : (acc.map Prod.fst).Nodup) : ((bumpNat acc x).map Prod.fst).Nodup := by
  rw [bumpNat_keys]
  by_cases hm : x ∈ acc.map Prod.fst
  · simpa [hm] using h
  · simpa [hm, List.nodup_append] using h

theorem bumpNat_pos (acc : List (String × ℕ)) (c : String)
    (h : ∀ p ∈ acc, p.2 ≠ 0) : ∀ p ∈ bumpNat acc c, p.2 ≠ 0 := by
  induction acc with
  | nil =>
    intro p hp
    simp only [bumpNat, List.mem_singleton] at hp
    simp [hp]
  | cons q rest ih =>
    obtain ⟨k, v⟩ := q
    by_cases hk : k = c
    · intro p hp
      simp only [bumpNat, if_pos hk, List.mem_cons] at hp
      rcases hp with rfl | hp
      · simp
      · exact h p (List.mem_cons_of_mem _ hp)
    · intro p hp
      simp only [bumpNat, if_neg hk, List.mem_cons] at hp
      rcases hp with rfl | hp
      · exact h (k, v) (List.mem_cons_self _ _)
      · exact ih (fun q hq => h q (List.mem_cons_of_mem _ hq)) p hp

theorem foldl_bumpNat_keys (l : List String) (acc : List (String × ℕ)) :
    (l.foldl bumpNat acc).map Prod.fst =
      l.foldl (fun ks c => if c ∈ ks then ks else ks ++ [c]) (acc.map Prod.fst) := by
  induction l generalizing acc with
  | nil => rfl
  | cons c l ih => simp only [List.foldl_cons, ih, bumpNat_keys]

theorem foldl_bumpNat_lookupD (l : List String) (acc : List (String × ℕ))
    (c : String) :
    lookupD (l.foldl bumpNat acc) c = lookupD acc c + l.count c := by
  induction l generalizing acc with
  | nil => simp
  | cons x l ih =>
    simp only [List.foldl_cons, ih, bumpNat_lookupD, List.count_cons]
    by_cases hxc : x = c
    · simp [hxc]
      omega
    · have : ¬ (c = x) := fun hh => hxc hh.symm
      simp [hxc, this]

theorem foldl_bumpNat_sum (l : List String) (acc : List (String × ℕ)) :
    (((l.foldl bumpNat acc).map Prod.snd).sum) = ((acc.map Prod.snd).sum) + l.length := by
  induction l generalizing acc with
  | nil => simp
  | cons x l ih =>
    simp only [List.foldl_cons, ih, bumpNat_sum, List.length_cons]
    omega

theorem foldl_bumpNat_nodup (l : List String) (acc : List (String × ℕ))
    (h : (acc.map Prod.fst).Nodup) : ((l.foldl bumpNat acc).map Prod.fst).Nodup := by
  induction l generalizing acc with
  | nil => exact h
  | cons x l ih => exact ih _ (bumpNat_nodup _ _ h)

theorem foldl_bumpNat_pos (l : List String) (acc : List (String × ℕ))
    (h : ∀ p ∈ acc, p.2 ≠ 0) : ∀ p ∈ l.foldl bumpNat acc, p.2 ≠ 0 := by
  induction l generalizing acc with
  | nil => exact h
  | cons x l ih => exact ih _ (bumpNat_pos _ _ h)

theorem bump_sim (acc : List (String × ℕ)) (c : String)
    (hc : c ∉ objectProtoKeys) (hpos : ∀ p ∈ acc, p.2 ≠ 0) :
    bump (acc.map (fun p => (p.1, JSVal.num p.2))) c =
      (bumpNat acc c).map (fun p => (p.1, JSVal.num p.2)) := by
  induction acc with
  | nil =>
    have hp : ¬ (c = "__proto__") :=
      fun he => hc (he ▸ (by decide : "__proto__" ∈ objectProtoKeys))
    simp [bump, bumpNat, hp, hc]
  | cons p rest ih =>
    obtain ⟨k, v⟩ := p
    by_cases hk : k = c
    · have hv : v ≠ 0 := hpos (k, v) (List.mem_cons_self _ _)
      simp [bump, bumpNat, bumpVal, hk, hv]
    · simp [bump, bumpNat, hk,
        ih (fun q hq => hpos q (List.mem_cons_of_mem _ hq))]

theorem foldl_bump_sim (l : List String) (hl : ∀ c ∈ l, c ∉ objectProtoKeys)
    (acc : List (String × ℕ)) (hpos : ∀ p ∈ acc, p.2 ≠ 0) :
    l.foldl bump (acc.map (fun p => (p.1, JSVal.num p.2))) =
      (l.foldl bumpNat acc).map (fun p => (p.1, JSVal.num p.2)) := by
  induction l generalizing acc with
  | nil => rfl
  | cons c l ih =>
    simp only [List.foldl_cons]
    rw [bump_sim acc c (hl c (List.mem_cons_self _ _)) hpos]
    exact ih (fun d hd => hl d (List.mem_cons_of_mem _ hd)) (bumpNat acc c)
      (bumpNat_pos acc c hpos)

theorem mem_insertionKeys_aux (l : List String) (acc : List String) (a : String) :
    (a ∈ l.foldl (fun ks c => if c ∈ ks then ks else ks ++ [c]) acc) ↔
      a ∈ acc ∨ a ∈ l := by
  induction l generalizing acc with
  | nil => simp
  | cons c l ih =>
    simp only [List.foldl_cons, ih, List.mem_cons]
    by_cases h : c ∈ acc
    · simp only [if_pos h]
      constructor
      · rintro (ha | hl)
        · exact Or.inl ha
        · exact Or.inr (Or.inr hl)
      · rintro (ha | rfl | hl)
        · exact Or.inl ha
        · exact Or.inl h
        · exact Or.inr hl
    · simp only [if_neg h, List.mem_append, List.mem_singleton]
      constructor
      · rintro ((ha | rfl) | hl)
        · exact Or.inl ha
        · exact Or.inr (Or.inl rfl)
        · exact Or.inr (Or.inr hl)
      · rintro (ha | rfl | hl)
        · exact Or.inl (Or.inl ha)
        · exact Or.inl (Or.inr rfl)
        · exact Or.inr hl

theorem mem_insertionKeys (l : List String) (a : String) :
    a ∈ insertionKeys l ↔ a ∈ l := by
  simpa [insertionKeys] using mem_insertionKeys_aux l [] a

theorem jsEntries_plain (own : List (String × JSVal))
    (h : ∀ p ∈ own, isArrayIndex p.1 = false) : jsEntries own = own := by
  have h1 : own.filter (fun p => isArrayIndex p.1) = [] := by
    rw [List.filter_eq_nil_iff]
    intro p hp
    simp [h p hp]
  have h2 : own.filter (fun p => !isArrayIndex p.1) = own := by
    rw [List.filter_eq_self]
    intro p hp
    simp [h p hp]
  simp [jsEntries, h1, h2, sortByIndex]

theorem lookupD_of_mem_nodup {r : List (String × ℕ)}
    (hnd : (r.map Prod.fst).Nodup) {c : String} {k : ℕ} (hm : (c, k) ∈ r) :
    lookupD r c = k := by
  induction r with
  | nil => cases hm
  | cons p rest ih =>
    obtain ⟨k0, v0⟩ := p
    rcases List.mem_cons.mp hm with he | hr
    · obtain ⟨h1, h2⟩ := Prod.mk.injEq .. ▸ he.symm
      simp [lookupD, h1.symm, h2.symm]
    · have hk0 : k0 ∉ rest.map Prod.fst := by
        simpa using (List.nodup_cons.mp hnd).1
      by_cases hkc : k0 = c
      · exfalso
        apply hk0
        rw [hkc]
        exact List.mem_map.mpr ⟨(c, k), hr, rfl⟩
      · simp only [lookupD, if_neg hkc]
        exact ih (List.nodup_cons.mp hnd).2 hr

/-- Spec-side numeric reading of a count value: a number reads as itself, a
corrupted string counts no records. -/
def jsValToNat : JSVal → ℕ
  | .num n => n
  | .str _ => 0

/-- A March record in the alphabetic category "b", stored first. -/
def catOrdB : Transaction :=
  { title := "p", price := 1, category := "b", saleMonth := 3, sold := true }

/-- A March record in the digit-named category "1", stored second. -/
def catOrd1 : Transaction :=
  { title := "q", price := 2, category := "1", saleMonth := 3 }

/-- C7 counterexample: with categories first observed in the order
"b", "1", `Object.entries` lists the array-index-like key "1" first, so
`getPieChart` returns the categories as ["1", "b"] while the insertion
order of first occurrence is ["b", "1"] — the claimed output order is false
for digit-named categories. -/
theorem c7_entries_not_insertion_order :
    getPieChart [catOrdB, catOrd1] (some "3") =
      .ok [⟨"1", .num 1⟩, ⟨"b", .num 1⟩] ∧
    insertionKeys (pieLabels [catOrdB, catOrd1] 3) = ["b", "1"] := by
  decide

/-- C7 amended: for every valid month whose category labels (missing or
empty mapped to "Uncategorized") are plain object keys — not array-index
digit strings and not names of `Object.prototype` members — `getPieChart`
returns one entry per distinct label in insertion-order of first
occurrence, each count being the number of that label's occurrences, and
the counts sum to the total number of the month's records, sold or not.
(Digit-named categories are reordered first by `Object.entries`, and
categories naming `Object.prototype` members read an inherited function
through `acc[category] || 0`, corrupting the count into a string.) -/
theorem c7_pieChart_amended (db : List Transaction) (s : String) (m : ℕ)
    (h1 : jsToNum s = .num (m : ℚ)) (h2 : 1 ≤ m) (h3 : m ≤ 12)
    (hplain : ∀ c ∈ pieLabels db m,
      isArrayIndex c = false ∧ c ∉ objectProtoKeys) :
    ∃ r, getPieChart db (some s) = .ok r ∧
      r.map (fun e => e.category) = insertionKeys (pieLabels db m) ∧
      (∀ e ∈ r, e.count = .num ((pieLabels db m).count e.category)) ∧
      (r.map (fun e => jsValToNat e.count)).sum =
        (db.filter (fun t => t.saleMonth = m)).length := by
  have hv : monthInvalid (some s) = false := monthInvalid_valid h1 h2 h3
  have hfold : (pieLabels db m).foldl bump [] =
      ((pieLabels db m).foldl bumpNat []).map (fun p => (p.1, JSVal.num p.2)) := by
    simpa using foldl_bump_sim (pieLabels db m)
      (fun c hc => (hplain c hc).2) [] (by simp)
  have hkeysL : ∀ p ∈ (pieLabels db m).foldl bumpNat [], p.1 ∈ pieLabels db m := by
    intro p hp
    have hk : p.1 ∈ ((pieLabels db m).foldl bumpNat []).map Prod.fst :=
      List.mem_map.mpr ⟨p, hp, rfl⟩
    rw [foldl_bumpNat_keys] at hk
    exact (mem_insertionKeys _ _).mp (by simpa [insertionKeys] using hk)
  have hentries : jsEntries ((pieLabels db m).foldl bump []) =
      (pieLabels db m).foldl bump [] := by
    apply jsEntries_plain
    intro p hp
    rw [hfold] at hp
    rcases List.mem_map.mp hp with ⟨q, hq, rfl⟩
    exact (hplain q.1 (hkeysL q hq)).1
  have hbody : pieBody db (jsToNum s) =
      (((pieLabels db m).foldl bumpNat []).map
        (fun p => (p.1, JSVal.num p.2))).map (fun p => ⟨p.1, p.2⟩) := by
    simp only [pieBody, h1, filter_month]
    rw [show (db.filter (fun t => t.saleMonth = m)).map categoryLabel =
        pieLabels db m from rfl]
    rw [hentries, hfold]
  refine ⟨pieBody db (jsToNum s), ?_, ?_, ?_, ?_⟩
  · simp [getPieChart, getPieChartWith, hv]
  · rw [hbody, List.map_map, List.map_map]
    simpa [insertionKeys, Function.comp] using
      foldl_bumpNat_keys (pieLabels db m) []
  · rw [hbody]
    intro e he
    simp only [List.map_map] at he
    rcases List.mem_map.mp he with ⟨p, hp, rfl⟩
    have hnd : (((pieLabels db m).foldl bumpNat []).map Prod.fst).Nodup :=
      foldl_bumpNat_nodup _ [] (by simp)
    have hlk : lookupD ((pieLabels db m).foldl bumpNat []) p.1 = p.2 :=
      lookupD_of_mem_nodup hnd (by simpa using hp)
    have hcount := foldl_bumpNat_lookupD (pieLabels db m) [] p.1
    simp only [lookupD] at hcount
    simp only [hlk] at hcount
    simp only [Function.comp]
    exact congrArg JSVal.num (by simpa using hcount)
  · rw [hbody, List.map_map, List.map_map]
    have := foldl_bumpNat_sum (pieLabels db m) []
    simp only [List.map_nil, List.sum_nil, Nat.zero_add] at this
    simpa [Function.comp, jsValToNat, pieLabels] using this

/-- Witness for the amended C7 at the spec's worked example (plain category
labels "Electronics" and "Uncategorized"). -/
theorem c7_pieChart_amended_witness :
    ∃ r, getPieChart specExample (some "3") = .ok r ∧
      r.map (fun e => e.category) = insertionKeys (pieLabels specExample 3) ∧
      (∀ e ∈ r, e.count = .num ((pieLabels specExample 3).count e.category)) ∧
      (r.map (fun e => jsValToNat e.count)).sum =
        (specExample.filter (fun t => t.saleMonth = 3)).length :=
  c7_pieChart_amended specExample "3" 3 (by decide) (by decide) (by decide)
    (by decide)

/-! ### Regex-versus-substring lemmas -/

theorem matchesHere_lit (nl hl : List Char) :
    matchesHere (nl.map RChar.lit) hl = startsWithCI nl hl := by
  induction nl generalizing hl with
  | nil => simp [matchesHere, startsWithCI]
  | cons a as ih =>
    cases hl with
    | nil => simp [matchesHere, startsWithCI]
    | cons b bs => simp [matchesHere, startsWithCI, rcharMatches, ih]

theorem regexTest_lit (nl hl : List Char) :
    regexTest (nl.map RChar.lit) hl = containsCI nl hl := by
  induction hl with
  | nil => simpa [regexTest, containsCI] using matchesHere_lit nl []
  | cons b bs ih => simp [regexTest, containsCI, matchesHere_lit, ih]

theorem compileRegex_lit (s : String) (h : '.' ∉ s.data) :
    compileRegex s = s.data.map RChar.lit := by
  apply List.map_congr_left
  intro c hc
  have : ¬ (c = '.') := fun e => h (e ▸ hc)
  simp [this]

/-- A sold March document whose title "ab" contains no period. -/
def dotDoc : Transaction :=
  { title := "ab", price := 5, category := "c", saleMonth := 3, sold := true }

/-- C5 counterexample: searching for "." selects the record titled "ab",
although "." does not occur as a substring of its title or description and
"." does not parse as a number — `new RegExp(search, "i")` treats the search
text as a pattern, so `.` matches any character rather than a literal
period.  The claim's "for every search string … contains the search text as
a substring" therefore fails. -/
theorem c5_regex_not_substring :
    listTransactions [dotDoc] ⟨some "3", some ".", none, none⟩ =
      .ok ⟨[dotDoc], ⟨1, 1, 10, 1⟩⟩ ∧
    specSearchMatches "." dotDoc = false := by
  decide

/-- C5 amended: for search strings containing no regular-expression
metacharacter, the `$or` clause built by `listTransactions` selects exactly
the records whose title or description contains the search text
case-insensitively as a substring, or whose price equals the numeric value
of the search text when it parses as a number (the price clause not applying
otherwise). -/
theorem c5_search_amended (search : String) (t : Transaction)
    (h : ∀ c ∈ search.data, c ∉ metachars) :
    searchMatches search t = specSearchMatches search t := by
  have hdot : '.' ∉ search.data := fun hm => h '.' hm (by decide)
  simp [searchMatches, specSearchMatches, compileRegex_lit search hdot,
    regexTest_lit]

/-- Witness for the amended C5 at the metacharacter-free search "ab". -/
theorem c5_search_amended_witness :
    (∀ c ∈ ("ab" : String).data, c ∉ metachars) ∧
    searchMatches "ab" dotDoc = specSearchMatches "ab" dotDoc :=
  ⟨by decide, c5_search_amended "ab" dotDoc (by decide)⟩

/-! ### Bar-chart counting lemmas -/

theorem sum_map_add_nat {α : Type} (f g : α → ℕ) (l : List α) :
    (l.map (fun a => f a + g a)).sum = (l.map f).sum + (l.map g).sum := by
  induction l with
  | nil => rfl
  | cons a l ih =>
    simp only [List.map_cons, List.sum_cons, ih]
    omega

theorem length_filter_eq_sum {α : Type} (p : α → Bool) (l : List α) :
    (l.filter p).length = (l.map (fun a => if p a then 1 else 0)).sum := by
  induction l with
  | nil => rfl
  | cons a l ih =>
    by_cases h : p a = true
    · simp only [List.filter_cons, if_pos h, List.length_cons, ih,
        List.map_cons, List.sum_cons, if_pos h]
      omega
    · simp [List.filter_cons, h, ih]

theorem count_swap {α β : Type} (A : List α) (B : List β) (p : α → β → Bool) :
    (A.map (fun a => (B.filter (p a)).length)).sum =
      (B.map (fun b => (A.filter (fun a => p a b)).length)).sum := by
  induction B with
  | nil => simp
  | cons b B ih =>
    have step : ∀ a : α, ((b :: B).filter (p a)).length =
        (if p a b then 1 else 0) + (B.filter (p a)).length := by
      intro a
      by_cases h : p a b = true
      · simp only [List.filter_cons, if_pos h, List.length_cons]
        omega
      · simp [List.filter_cons, h]
    simp only [step, sum_map_add_nat, ih, List.map_cons, List.sum_cons]
    rw [← length_filter_eq_sum]

theorem ranges_zero_of_not_sold (t : Transaction) (hs : t.sold = false) :
    (ranges.filter (fun r => rangePred r t)).length = 0 := by
  simp [rangePred, hs]

theorem ranges_cover_nat (n : ℕ) (t : Transaction)
    (hp : t.price = (n : ℚ)) (hs : t.sold = true) :
    (ranges.filter (fun r => rangePred r t)).length = 1 := by
  rw [length_filter_eq_sum]
  simp only [ranges, List.map_cons, List.map_nil, List.sum_cons, List.sum_nil]
  simp only [rangePred, priceUpTo, hp, hs, Bool.and_true, Bool.and_eq_true,
    decide_eq_true_eq, Nat.cast_ofNat, Nat.cast_zero, Nat.cast_nonneg,
    Nat.ofNat_le_cast, Nat.cast_le_ofNat, true_and]
  split_ifs <;> omega

theorem ranges_exclusive (p : ℚ) (r1 : Range) (h1 : r1 ∈ ranges) (r2 : Range)
    (h2 : r2 ∈ ranges) (m1 : rangeMem p r1 = true) (m2 : rangeMem p r2 = true) :
    r1 = r2 := by
  fin_cases h1 <;> fin_cases h2 <;>
    first
      | rfl
      | (exfalso
         simp only [rangeMem, priceUpTo, Bool.and_eq_true, Bool.and_true,
           decide_eq_true_eq, Nat.cast_ofNat, Nat.cast_zero] at m1 m2
         first
           | linarith [m1.1, m1.2, m2.1, m2.2]
           | linarith [m1.1, m1.2, m2]
           | linarith [m1, m2.1, m2.2])

/-- A sold March document priced 100.5 (written as 201/2), lying in none of
the ten buckets. -/
def fracDoc : Transaction :=
  { title := "x", price := 201/2, saleMonth := 3, sold := true }

/-- C2 counterexample: with a single sold March record of price 100.5, every
bucket count is 0 although the month has one sold record with a price in
[0, ∞) — the buckets [0,100], [101,200], … are *not* exhaustive over
[0, ∞) (any price strictly between 100k and 100k+1 for k = 1..9 falls into
no bucket), so the counts do not sum to the number of sold records. -/
theorem c2_buckets_not_exhaustive :
    getBarChart [fracDoc] (some "3") =
      .ok [⟨"0-100", 0⟩, ⟨"101-200", 0⟩, ⟨"201-300", 0⟩, ⟨"301-400", 0⟩,
           ⟨"401-500", 0⟩, ⟨"501-600", 0⟩, ⟨"601-700", 0⟩, ⟨"701-800", 0⟩,
           ⟨"801-900", 0⟩, ⟨"901-above", 0⟩] ∧
    (0 : ℚ) ≤ fracDoc.price ∧
    ((([fracDoc] : List Transaction).filter (fun t => t.saleMonth = 3)).filter
      (fun t => t.sold)).length = 1 := by
  refine ⟨?_, by norm_num [fracDoc], by decide⟩
  have h3 : jsToNum "3" = JSNum.num ((3 : ℕ) : ℚ) := by decide
  have hv : monthInvalid (some "3") = false :=
    monthInvalid_valid h3 (by norm_num) (by norm_num)
  simp only [getBarChart, getBarChartWith, hv, Bool.false_eq_true, if_false,
    Option.getD_some, h3, barBody, filter_month]
  norm_num [ranges, rangePred, priceUpTo, List.filter, fracDoc]

/-- C2 amended: for every valid month, `getBarChart` returns the ten buckets
in the listed order (zero counts included, only sold records counted); the
buckets are mutually exclusive, and on any data set whose prices are
non-negative integers — though not over all of [0, ∞), see the
counterexample — they are exhaustive, so the per-bucket counts sum to the
number of sold records of that month. -/
theorem c2_barChart_amended (db : List Transaction) (s : String) (m : ℕ)
    (h1 : jsToNum s = .num (m : ℚ)) (h2 : 1 ≤ m) (h3 : m ≤ 12)
    (hint : ∀ t ∈ db, ∃ n : ℕ, t.price = (n : ℚ)) :
    (∀ p : ℚ, ∀ r1 ∈ ranges, ∀ r2 ∈ ranges,
        rangeMem p r1 = true → rangeMem p r2 = true → r1 = r2) ∧
    ∃ counts, getBarChart db (some s) = .ok counts ∧
      counts.map (fun e => e.range) =
        ["0-100", "101-200", "201-300", "301-400", "401-500",
         "501-600", "601-700", "701-800", "801-900", "901-above"] ∧
      (counts.map (fun e => e.count)).sum =
        ((db.filter (fun t => t.saleMonth = m)).filter (fun t => t.sold)).length := by
  have hv : monthInvalid (some s) = false := monthInvalid_valid h1 h2 h3
  refine ⟨fun p r1 hr1 r2 hr2 => ranges_exclusive p r1 hr1 r2 hr2,
    barBody db (jsToNum s), ?_, ?_, ?_⟩
  · simp [getBarChart, getBarChartWith, hv]
  · simp [barBody, ranges]
  · rw [h1]
    simp only [barBody, filter_month, List.map_map]
    have hsub : ∀ t ∈ db.filter (fun t => t.saleMonth = m),
        ∃ n : ℕ, t.price = (n : ℚ) :=
      fun t ht => hint t (List.mem_of_mem_filter ht)
    calc ((ranges.map fun r =>
            ((db.filter (fun t => t.saleMonth = m)).filter (rangePred r)).length)).sum
        = ((db.filter (fun t => t.saleMonth = m)).map fun t =>
            (ranges.filter (fun r => rangePred r t)).length).sum :=
          count_swap ranges (db.filter (fun t => t.saleMonth = m)) rangePred
      _ = ((db.filter (fun t => t.saleMonth = m)).map fun t =>
            if t.sold then 1 else 0).sum := by
          apply congrArg List.sum
          apply List.map_congr_left
          intro t ht
          rcases hsub t ht with ⟨n, hn⟩
          by_cases hsold : t.sold = true
          · rw [ranges_cover_nat n t hn hsold, if_pos hsold]
          · have hf : t.sold = false := by
              cases hb : t.sold
              · rfl
              · exact absurd hb hsold
            rw [ranges_zero_of_not_sold t hf, if_neg hsold]
      _ = ((db.filter (fun t => t.saleMonth = m)).filter (fun t => t.sold)).length :=
          (length_filter_eq_sum _ _).symm

/-- Witness for the amended C2 at the spec's worked example (integer prices
150 and 50, month 3). -/
theorem c2_barChart_amended_witness :
    (∀ p : ℚ, ∀ r1 ∈ ranges, ∀ r2 ∈ ranges,
        rangeMem p r1 = true → rangeMem p r2 = true → r1 = r2) ∧
    ∃ counts, getBarChart specExample (some "3") = .ok counts ∧
      counts.map (fun e => e.range) =
        ["0-100", "101-200", "201-300", "301-400", "401-500",
         "501-600", "601-700", "701-800", "801-900", "901-above"] ∧
      (counts.map (fun e => e.count)).sum =
        ((specExample.filter (fun t => t.saleMonth = 3)).filter
          (fun t => t.sold)).length :=
  c2_barChart_amended specExample "3" 3 (by decide) (by decide) (by decide)
    (by
      intro t ht
      simp only [specExample, List.mem_cons, List.not_mem_nil, or_false] at ht
      rcases ht with rfl | rfl
      · exact ⟨150, by norm_num⟩
      · exact ⟨50, by norm_num⟩)

end Roxiler
